import Mathlib

/-!
# Verification of micropython-timezone

Shallow embedding of the core logic of the `micropython-timezone` repository:

* the proleptic-Gregorian calendar helpers supplied by Python's `datetime.date`
  (leap years, month lengths, `date.weekday()` with Monday = 0);
* `_nth_weekday` — the nth-weekday-of-month resolver emitted by
  `timezone_generator.py` (also present verbatim in the generated example
  module);
* `_first_sunday` — the Zeller-congruence first-Sunday computation of the
  hand-authored Australian example module;
* `_is_dst_active` — both the generic rule-driven evaluator and the
  hand-coded Australian evaluator;
* the `ZoneInfo` runtime query surface (`utcoffset`, `dst`, `tzname`) over
  the generated `_ZONES` table;
* `get_zone_info` / `find_dst_transitions` — the rule extractor, modelled
  over an abstract timezone oracle.

Python integer division and modulo (`//`, `%`) round toward negative
infinity; for the positive divisors used throughout this code they coincide
with Lean's `Int.ediv` / `Int.emod`, which are used for every translated
division.
-/

namespace MpyTz

/-- Gregorian leap-year test, as implemented by Python's `calendar`/`datetime`. -/
def isLeap (y : Nat) : Bool :=
  (y % 4 == 0 && y % 100 != 0) || y % 400 == 0

/-- Number of days in a month of the proleptic Gregorian calendar
(the value Python's `date(y, m+1, 1) - timedelta(days=1)` exposes as `.day`,
and `calendar.monthrange(y, m)[1]`). -/
def daysInMonth (y m : Nat) : Nat :=
  if m == 2 then (if isLeap y then 29 else 28)
  else if m == 4 || m == 6 || m == 9 || m == 11 then 30
  else 31

/-- Days in all years before year `y` of the proleptic Gregorian calendar
(`date(y, 1, 1).toordinal() - 1` in Python). -/
def daysBeforeYear (y : Nat) : Nat :=
  365 * (y - 1) + (y - 1) / 4 + (y - 1) / 400 - (y - 1) / 100

/-- Days in the months of year `y` strictly before month `m`. -/
def daysBeforeMonth (y m : Nat) : Nat :=
  let l : Nat := if isLeap y then 1 else 0
  match m with
  | 1 => 0
  | 2 => 31
  | 3 => 59 + l
  | 4 => 90 + l
  | 5 => 120 + l
  | 6 => 151 + l
  | 7 => 181 + l
  | 8 => 212 + l
  | 9 => 243 + l
  | 10 => 273 + l
  | 11 => 304 + l
  | _ => 334 + l

/-- Python's `date(y, m, d).toordinal()`: day count with 0001-01-01 = 1. -/
def toOrdinal (y m d : Nat) : Nat :=
  daysBeforeYear y + daysBeforeMonth y m + d

/-- Python's `date(y, m, d).weekday()`: 0 = Monday … 6 = Sunday
(0001-01-01 is a Monday). -/
def pyWeekday (y m d : Nat) : Nat :=
  (toOrdinal y m d + 6) % 7

/-- `_nth_weekday(year, month, week, weekday)` from `timezone_generator.py`
(the same function appears verbatim in the generated runtime module):
the day-of-month of the `week`-th occurrence of `weekday` in the month,
with `week = 5` meaning "last occurrence".  Python's `%`/`//` with the
positive divisor 7 are `Int.emod`/`Int.ediv`. -/
def nth_weekday (year month week weekday : Nat) : Int :=
  let first_weekday := pyWeekday year month 1
  let days_until : Int := ((weekday : Int) - (first_weekday : Int)) % 7
  let first_occurrence : Int := 1 + days_until
  if week == 5 then
    let last_day := daysInMonth year month
    let last_weekday := pyWeekday year month last_day
    let days_back : Int := ((last_weekday : Int) - (weekday : Int)) % 7
    (last_day : Int) - days_back
  else
    first_occurrence + ((week : Int) - 1) * 7

/-- `_first_sunday(year, month)` from the hand-authored Australian example
module: day-of-month of the first Sunday, via a Zeller-congruence weekday
computation.  All divisors are positive, so Python `%`/`//` are
`Int.emod`/`Int.ediv`. -/
def first_sunday (year month : Nat) : Int :=
  let y : Int := if month < 3 then (year : Int) - 1 else (year : Int)
  let m : Int := if month < 3 then (month : Int) + 12 else (month : Int)
  let q : Int := 1
  let k : Int := y % 100
  let j : Int := y / 100
  let h : Int := (q + (13 * (m + 1)) / 5 + k + k / 4 + j / 4 - 2 * j) % 7
  let weekday : Int := (h + 5) % 7
  let dus : Int := (6 - weekday) % 7
  let days_until_sunday : Int := if dus == 0 && weekday != 6 then 7 else dus
  1 + days_until_sunday

/-! ## Helper lemmas: 400-year periodicity of both weekday computations

The Gregorian calendar repeats with period 400 (146097 days, a multiple
of 7).  Both the Zeller computation of `first_sunday` and the
ordinal-based `pyWeekday` respect this, which reduces the agreement of the
two first-Sunday computations on all years to a finite window check. -/

/-- The Zeller hash of `first_sunday`, extracted for arithmetic reasoning. -/
def zellerH (y m : Int) : Int :=
  (1 + (13 * (m + 1)) / 5 + y % 100 + (y % 100) / 4 + (y / 100) / 4 - 2 * (y / 100)) % 7

/-- The post-processing of `first_sunday` after the Zeller hash. -/
def fsAdjust (h : Int) : Int :=
  let weekday : Int := (h + 5) % 7
  let dus : Int := (6 - weekday) % 7
  let days_until_sunday : Int := if dus == 0 && weekday != 6 then 7 else dus
  1 + days_until_sunday

/-! ## Data model

The generated runtime module's `_ZONES` maps a zone name to the six-tuple
`(std_offset_minutes, dst_offset_minutes, has_dst, hemisphere, dst_start,
dst_end)` where each transition is a four-tuple
`(month, week, weekday, hour)`; `week = 5` means "last", weekdays use
Monday = 0 … Sunday = 6. -/

/-- A transition rule four-tuple `(month, week, weekday, hour)`. -/
structure TransRule where
  month : Nat
  week : Nat
  weekday : Nat
  hour : Nat
deriving DecidableEq, Repr

/-- A `_ZONES` entry (the six-tuple).  `hemisphere`, `dst_start` and
`dst_end` are `None` in the table exactly for no-DST zones. -/
structure ZoneData where
  std_off : Int
  dst_off : Int
  has_dst : Bool
  hemisphere : Option String
  dst_start : Option TransRule
  dst_end : Option TransRule
deriving DecidableEq, Repr

/-- A naive local datetime (Python `datetime` restricts years to 1–9999). -/
structure NaiveDT where
  year : Nat
  month : Nat
  day : Nat
  hour : Nat
  minute : Nat
  second : Nat
deriving DecidableEq, Repr

/-- Structural validity of a naive datetime, per Python's `datetime`. -/
def ValidDT (dt : NaiveDT) : Prop :=
  1 ≤ dt.year ∧ dt.year ≤ 9999 ∧ 1 ≤ dt.month ∧ dt.month ≤ 12 ∧
  1 ≤ dt.day ∧ dt.day ≤ daysInMonth dt.year dt.month ∧
  dt.hour ≤ 23 ∧ dt.minute ≤ 59 ∧ dt.second ≤ 59

instance (dt : NaiveDT) : Decidable (ValidDT dt) := by
  unfold ValidDT; infer_instance

/-- Python's lexicographic `<` on the `(month, day, hour)` triples the
evaluator compares. -/
def tLt (a b : Int × Int × Int) : Bool :=
  decide (a.1 < b.1) ||
    (a.1 == b.1 &&
      (decide (a.2.1 < b.2.1) || (a.2.1 == b.2.1 && decide (a.2.2 < b.2.2))))

/-- Python's lexicographic `>=` on triples; on the total lexicographic
order `a >= b` is exactly `¬ (a < b)`. -/
def tGe (a b : Int × Int × Int) : Bool := !(tLt a b)

/-- `_is_dst_active(dt, zone_data)` of the generated runtime module
(identical to the copy inside `timezone_generator.py`'s emitted template).
Returns `none` when `has_dst` is true but a transition rule is `None`, in
which case the Python code would raise on tuple indexing; every table
entry with `has_dst` true carries both rules, so the runtime path always
yields `some`. -/
def is_dst_active (dt : NaiveDT) (zd : ZoneData) : Option Bool :=
  if !zd.has_dst then some false
  else
    match zd.dst_start, zd.dst_end with
    | some s, some e =>
      let start_day := nth_weekday dt.year s.month s.week s.weekday
      let end_day := nth_weekday dt.year e.month e.week e.weekday
      let start_dt : Int × Int × Int := ((s.month : Int), start_day, (s.hour : Int))
      let end_dt : Int × Int × Int := ((e.month : Int), end_day, (e.hour : Int))
      let current : Int × Int × Int := ((dt.month : Int), (dt.day : Int), (dt.hour : Int))
      if zd.hemisphere == some "south" then
        some (tGe current start_dt || tLt current end_dt)
      else
        some (tGe current start_dt && tLt current end_dt)
    | _, _ => none

/-- The generated `_ZONES` table of the example output module. -/
def ZONES : List (String × ZoneData) :=
  [("Australia/Adelaide", ⟨570, 630, true, some "south", some ⟨10, 1, 6, 2⟩, some ⟨4, 1, 6, 3⟩⟩),
   ("Australia/Brisbane", ⟨600, 600, false, none, none, none⟩),
   ("Australia/Melbourne", ⟨600, 660, true, some "south", some ⟨10, 1, 6, 2⟩, some ⟨4, 1, 6, 3⟩⟩),
   ("Australia/Perth", ⟨480, 480, false, none, none, none⟩),
   ("Australia/Sydney", ⟨600, 660, true, some "south", some ⟨10, 1, 6, 2⟩, some ⟨4, 1, 6, 3⟩⟩),
   ("UTC", ⟨0, 0, false, none, none, none⟩)]

/-- Dictionary lookup in `_ZONES`. -/
def zones_lookup (key : String) : Option ZoneData :=
  (ZONES.find? (fun p => p.1 == key)).map (fun p => p.2)

/-- `ZoneInfo.__init__`: raises `KeyError` for a key absent from `_ZONES`,
before any state of the handle is set; otherwise stores the zone data. -/
def ZoneInfo_init (key : String) : Except String ZoneData :=
  match zones_lookup key with
  | none => Except.error ("Unknown timezone: " ++ key)
  | some zd => Except.ok zd

/-- `ZoneInfo.utcoffset` in minutes (`timedelta(minutes=...)`). -/
def utcoffset (zd : ZoneData) (dt : NaiveDT) : Option Int :=
  (is_dst_active dt zd).map (fun b => if b then zd.dst_off else zd.std_off)

/-- `ZoneInfo.dst` in minutes. -/
def dstDelta (zd : ZoneData) (dt : NaiveDT) : Option Int :=
  (is_dst_active dt zd).map (fun b => if b then zd.dst_off - zd.std_off else 0)

/-- Python `f"{n:02d}"` for `0 ≤ n < 100`. -/
def pad2 (n : Nat) : String :=
  if n < 10 then "0" ++ toString n else toString n

/-- Python `f"{h:+d}"`: decimal with mandatory sign. -/
def signedHours (h : Int) : String :=
  if h < 0 then toString h else "+" ++ toString h

/-- The body of `ZoneInfo.tzname` on the total offset minutes:
`hours = total // 60`, `minutes = abs(total % 60)` (Python floor division
and floor modulo; for the positive divisor 60 these are `Int.ediv` and
`Int.emod`, which `/` and `%` denote here). -/
def tznameOfMinutes (total_minutes : Int) : String :=
  let hours := total_minutes / 60
  let minutes := (total_minutes % 60).natAbs
  if minutes != 0 then "UTC" ++ signedHours hours ++ ":" ++ pad2 minutes
  else "UTC" ++ signedHours hours

/-- `ZoneInfo.tzname`. -/
def tzname (zd : ZoneData) (dt : NaiveDT) : Option String :=
  (utcoffset zd dt).map tznameOfMinutes

/-- `_is_dst_active(dt, has_dst)` of the hand-authored Australian example
module: month-by-month case analysis with `_first_sunday` boundaries. -/
def is_dst_active_au (dt : NaiveDT) (has_dst : Bool) : Bool :=
  if !has_dst then false
  else
    let oct_sunday := first_sunday dt.year 10
    let apr_sunday := first_sunday dt.year 4
    if dt.month > 10 then true
    else if dt.month == 10 then
      if (dt.day : Int) > oct_sunday then true
      else if (dt.day : Int) == oct_sunday && dt.hour ≥ 2 then true
      else false
    else if dt.month < 4 then true
    else if dt.month == 4 then
      if (dt.day : Int) < apr_sunday then true
      else if (dt.day : Int) == apr_sunday && dt.hour < 3 then true
      else false
    else false

/-! ## The rule extractor (`timezone_generator.py`)

`get_zone_info` and `find_dst_transitions` consume the system `zoneinfo`
database.  That oracle is external: it is modelled as a function from a
local datetime `(year, month, day, hour)` (minute 0 everywhere in the
source) to the zone's UTC offset in minutes and DST delta in minutes,
exactly the two quantities (`utcoffset()`, `dst()`) the source reads.
Offsets of real zones are whole minutes, so the source's
`total_seconds() / 60` (and the `int(...)` around it) is modelled as the
minute count itself. -/

/-- One oracle answer: `utcoffset` in minutes and `dst()` in minutes
(`none` models `dt.dst() is None`). -/
structure OracleSample where
  offset : Int
  dstMin : Option Int
deriving DecidableEq, Repr

/-- External full-fidelity timezone oracle (`zoneinfo.ZoneInfo`). -/
structure TzOracle where
  sample : Nat → Nat → Nat → Nat → OracleSample

/-- `dst_active = dst is not None and dst.total_seconds() > 0`. -/
def dstFlag (s : OracleSample) : Bool :=
  match s.dstMin with
  | some v => decide (v > 0)
  | none => false

/-- The intermediate `transitions` dict of `find_dst_transitions`. -/
structure Transitions where
  tstart : Option TransRule
  tend : Option TransRule
deriving DecidableEq, Repr

/-- The rule-derivation block of `find_dst_transitions` at a detected
transition day: weekday, first occurrence of that weekday, week index
`((day - first_occurrence) // 7) + 1`, replaced by the sentinel 5 when no
same-weekday date remains in the month.  The computed week index is
non-negative (proved below), so storing it as `Nat` via `Int.toNat` is
exact. -/
def deriveRule (year month day hour : Nat) : TransRule :=
  let weekday := pyWeekday year month day
  let first_weekday := pyWeekday year month 1
  let days_until := ((weekday : Int) - (first_weekday : Int)) % 7
  let first_occurrence : Int := 1 + days_until
  let week : Int := ((day : Int) - first_occurrence) / 7 + 1
  let days_in_month := daysInMonth year month
  let week2 : Int := if day + 7 > days_in_month then 5 else week
  ⟨month, week2.toNat, weekday, hour⟩

/-- One day of the `find_dst_transitions` scan: skip invalid dates
(`except ValueError: continue`), otherwise sample at noon, compare the DST
flag with the previous valid day's flag, and on a flip record a start rule
(hour 2) or an end rule (hour 3). -/
def scanStep (oracle : TzOracle) (year : Nat) (st : Option Bool × Transitions)
    (md : Nat × Nat) : Option Bool × Transitions :=
  if md.2 ≤ daysInMonth year md.1 then
    let dst_active := dstFlag (oracle.sample year md.1 md.2 12)
    let trans :=
      match st.1 with
      | some prev =>
        if dst_active != prev then
          if dst_active then { st.2 with tstart := some (deriveRule year md.1 md.2 2) }
          else { st.2 with tend := some (deriveRule year md.1 md.2 3) }
        else st.2
      | none => st.2
    (some dst_active, trans)
  else st

/-- The day grid of the scan: months 1–12, candidate days 1–31. -/
def allMonthDays : List (Nat × Nat) :=
  (List.range 12).flatMap (fun m => (List.range 31).map (fun d => (m + 1, d + 1)))

/-- `find_dst_transitions(tz, year)`. -/
def find_dst_transitions (oracle : TzOracle) (year : Nat) : Transitions :=
  (allMonthDays.foldl (scanStep oracle year) (none, ⟨none, none⟩)).2

/-- The record `get_zone_info` returns. -/
structure ZoneRecord where
  name : String
  std_offset_minutes : Int
  dst_offset_minutes : Int
  has_dst : Bool
  hemisphere : Option String
  transitions : Option Transitions
deriving Repr

/-- `get_zone_info(zone_name)`: raises `ValueError` for a zone the oracle
does not know (`lookup` is the `zoneinfo.ZoneInfo` constructor), otherwise
samples noon of January 15 and July 15 of 2024 to classify the zone. -/
def get_zone_info (lookup : String → Option TzOracle) (zone_name : String) :
    Except String ZoneRecord :=
  match lookup zone_name with
  | none => Except.error ("Unknown timezone: " ++ zone_name)
  | some tz =>
    let jan := tz.sample 2024 1 15 12
    let jul := tz.sample 2024 7 15 12
    let janDstPos := dstFlag jan
    let julDstPos := dstFlag jul
    let has_dst := janDstPos || julDstPos
    if has_dst then
      if janDstPos then
        Except.ok ⟨zone_name, jul.offset, jan.offset, true, some "south",
          some (find_dst_transitions tz 2024)⟩
      else
        Except.ok ⟨zone_name, jan.offset, jul.offset, true, some "north",
          some (find_dst_transitions tz 2024)⟩
    else
      Except.ok ⟨zone_name, jan.offset, jan.offset, false, none, none⟩

/-! ## C1: the generic evaluator compares (month, day, hour) triples
lexicographically, with hemisphere-dependent combination -/

/-- Specification-level strict lexicographic order on (month, day, hour). -/
def lexLt3 (a b : Int × Int × Int) : Prop :=
  a.1 < b.1 ∨ (a.1 = b.1 ∧ (a.2.1 < b.2.1 ∨ (a.2.1 = b.2.1 ∧ a.2.2 < b.2.2)))

/-- Specification-level lexicographic `≥` on (month, day, hour). -/
def lexGe3 (a b : Int × Int × Int) : Prop := lexLt3 b a ∨ a = b

/-- A concrete southern-hemisphere test oracle (DST November–March). -/
def southOracle : TzOracle :=
  ⟨fun _ month _ _ =>
    if 11 ≤ month || month ≤ 3 then ⟨630, some 60⟩ else ⟨570, some 0⟩⟩

lemma first_sunday_eq_adjust (year month : Nat) (hm : 3 ≤ month) :
    first_sunday year month = fsAdjust (zellerH (year : Int) (month : Int)) := by
  have h3 : ¬ (month < 3) := by omega
  simp only [first_sunday, fsAdjust, zellerH, if_neg h3]

lemma zellerH_periodic (y m : Int) : zellerH (y + 400) m = zellerH y m := by
  unfold zellerH
  have h1 : (y + 400) % 100 = y % 100 := by omega
  have h2 : (y + 400) / 100 = y / 100 + 4 := by omega
  rw [h1, h2]
  have h3 : (y / 100 + 4) / 4 = (y / 100) / 4 + 1 := by omega
  rw [h3]
  omega

lemma first_sunday_periodic (y m : Nat) (hm : 3 ≤ m) :
    first_sunday (y + 400) m = first_sunday y m := by
  rw [first_sunday_eq_adjust _ _ hm, first_sunday_eq_adjust _ _ hm]
  have : ((y + 400 : Nat) : Int) = (y : Int) + 400 := by push_cast; ring
  rw [this, zellerH_periodic]

lemma isLeap_periodic (y : Nat) : isLeap (y + 400) = isLeap y := by
  unfold isLeap
  have h1 : (y + 400) % 4 = y % 4 := by omega
  have h2 : (y + 400) % 100 = y % 100 := by omega
  have h3 : (y + 400) % 400 = y % 400 := by omega
  rw [h1, h2, h3]

lemma daysBeforeMonth_congr (y y' m : Nat) (h : isLeap y = isLeap y') :
    daysBeforeMonth y m = daysBeforeMonth y' m := by
  simp only [daysBeforeMonth, h]

lemma daysBeforeYear_periodic (y : Nat) (hy : 1 ≤ y) :
    daysBeforeYear (y + 400) = daysBeforeYear y + 146097 := by
  unfold daysBeforeYear
  omega

lemma pyWeekday_periodic (y m d : Nat) (hy : 1 ≤ y) :
    pyWeekday (y + 400) m d = pyWeekday y m d := by
  unfold pyWeekday toOrdinal
  rw [daysBeforeYear_periodic y hy, daysBeforeMonth_congr (y + 400) y m (isLeap_periodic y)]
  omega

lemma nth_weekday_first_periodic (y m w : Nat) (hy : 1 ≤ y) :
    nth_weekday (y + 400) m 1 w = nth_weekday y m 1 w := by
  simp only [nth_weekday]
  norm_num
  rw [pyWeekday_periodic y m 1 hy]

set_option maxRecDepth 40000 in
/-- Finite window: the two first-Sunday computations agree for the first
400 years, for the two months the Australian rule uses. -/
lemma first_sunday_window :
    ∀ y : Nat, y < 400 →
      first_sunday (y + 1) 10 = nth_weekday (y + 1) 10 1 6 ∧
      first_sunday (y + 1) 4 = nth_weekday (y + 1) 4 1 6 := by
  decide

/-- For every positive year, the Zeller first-Sunday computation of the
hand-authored module agrees with the generic nth-weekday resolver for
October and for April. -/
lemma first_sunday_eq_nth_weekday (y : Nat) (hy : 1 ≤ y) :
    first_sunday y 10 = nth_weekday y 10 1 6 ∧
    first_sunday y 4 = nth_weekday y 4 1 6 := by
  induction y using Nat.strong_induction_on with
  | _ y ih =>
    by_cases h : y ≤ 400
    · have hw := first_sunday_window (y - 1) (by omega)
      have hy1 : y - 1 + 1 = y := by omega
      rwa [hy1] at hw
    · have h400 : y - 400 + 400 = y := by omega
      have ihy := ih (y - 400) (by omega) (by omega)
      constructor
      · calc first_sunday y 10 = first_sunday (y - 400 + 400) 10 := by rw [h400]
          _ = first_sunday (y - 400) 10 := first_sunday_periodic _ _ (by omega)
          _ = nth_weekday (y - 400) 10 1 6 := ihy.1
          _ = nth_weekday (y - 400 + 400) 10 1 6 :=
              (nth_weekday_first_periodic _ _ _ (by omega)).symm
          _ = nth_weekday y 10 1 6 := by rw [h400]
      · calc first_sunday y 4 = first_sunday (y - 400 + 400) 4 := by rw [h400]
          _ = first_sunday (y - 400) 4 := first_sunday_periodic _ _ (by omega)
          _ = nth_weekday (y - 400) 4 1 6 := ihy.2
          _ = nth_weekday (y - 400 + 400) 4 1 6 :=
              (nth_weekday_first_periodic _ _ _ (by omega)).symm
          _ = nth_weekday y 4 1 6 := by rw [h400]

/-! ## Shared arithmetic helpers -/

lemma daysInMonth_bounds (y m : Nat) : 28 ≤ daysInMonth y m ∧ daysInMonth y m ≤ 31 := by
  unfold daysInMonth
  split
  · split <;> omega
  · split <;> omega

lemma pyWeekday_lt7 (y m d : Nat) : pyWeekday y m d < 7 := by
  unfold pyWeekday
  omega

/-- Days with the same weekday are exactly those congruent modulo 7:
`pyWeekday` is affine in the day. -/
lemma pyWeekday_shift (y m d : Nat) (hd : 1 ≤ d) :
    pyWeekday y m d = (pyWeekday y m 1 + (d - 1)) % 7 := by
  unfold pyWeekday toOrdinal
  omega

/-! ## C3: the nth-weekday resolver contract -/

/-- C3.  For occurrence 1–4, `_nth_weekday` returns
`1 + ((weekday - weekday_of_the_1st) mod 7) + (occurrence-1)*7`, which is
the occurrence-th date of that weekday in the month (its weekday is
`weekday` and it is the unique such date in the occurrence-th
calendar week block `7*(occ-1)+1 … 7*occ`); for the "last" sentinel 5 it
returns the latest day of the month (true month length, leap February
included) falling on that weekday.  Concretely,
`resolve(2024, 4, last, Sunday) = 28` and `resolve(2024, 10, 1, Sunday) = 6`. -/
theorem c3_nth_weekday_contract (y m w occ : Nat) (hw : w ≤ 6) :
    (1 ≤ occ → occ ≤ 4 →
      nth_weekday y m occ w =
        1 + ((w : Int) - (pyWeekday y m 1 : Int)) % 7 + ((occ : Int) - 1) * 7 ∧
      pyWeekday y m (nth_weekday y m occ w).toNat = w ∧
      7 * (occ - 1) < (nth_weekday y m occ w).toNat ∧
      (nth_weekday y m occ w).toNat ≤ 7 * occ) ∧
    (pyWeekday y m (nth_weekday y m 5 w).toNat = w ∧
      1 ≤ nth_weekday y m 5 w ∧
      nth_weekday y m 5 w ≤ (daysInMonth y m : Int) ∧
      (∀ d : Nat, (nth_weekday y m 5 w).toNat < d → d ≤ daysInMonth y m →
        pyWeekday y m d ≠ w)) ∧
    nth_weekday 2024 4 5 6 = 28 ∧ nth_weekday 2024 10 1 6 = 6 := by
  have hw1 := pyWeekday_lt7 y m 1
  have hdim := daysInMonth_bounds y m
  refine ⟨fun h1 h4 => ?_, ?_, by decide, by decide⟩
  · have hne : ¬ ((occ == 5) = true) := by simp only [beq_iff_eq]; omega
    have hval : nth_weekday y m occ w =
        1 + ((w : Int) - (pyWeekday y m 1 : Int)) % 7 + ((occ : Int) - 1) * 7 := by
      unfold nth_weekday
      rw [if_neg hne]
    refine ⟨hval, ?_, ?_, ?_⟩
    · rw [hval, pyWeekday_shift y m _ (by omega)]
      unfold pyWeekday toOrdinal
      omega
    · rw [hval]; omega
    · rw [hval]; omega
  · have hval : nth_weekday y m 5 w =
        (daysInMonth y m : Int) -
          ((pyWeekday y m (daysInMonth y m) : Int) - (w : Int)) % 7 := by
      unfold nth_weekday
      rw [if_pos (by decide)]
    have hlast := pyWeekday_lt7 y m (daysInMonth y m)
    have hshift := pyWeekday_shift y m (daysInMonth y m) (by omega)
    refine ⟨?_, by rw [hval]; omega, by rw [hval]; omega, ?_⟩
    · rw [hval, pyWeekday_shift y m _ (by omega)]
      · unfold pyWeekday toOrdinal at *
        omega
    · intro d hd1 hd2
      rw [hval] at hd1
      rw [pyWeekday_shift y m d (by omega)]
      unfold pyWeekday toOrdinal at *
      omega

/-- Witness for C3 at a concrete input. -/
theorem c3_witness :
    nth_weekday 2024 4 5 6 = 28 ∧ nth_weekday 2024 10 1 6 = 6 :=
  (c3_nth_weekday_contract 2024 4 6 1 (by decide)).2.2

/-! ## C10: the resolver stays inside the month without an explicit guard -/

lemma nth_weekday_bounds (y m w occ : Nat) (hw : w ≤ 6)
    (hocc : (1 ≤ occ ∧ occ ≤ 4) ∨ occ = 5) :
    1 ≤ nth_weekday y m occ w ∧ nth_weekday y m occ w ≤ (daysInMonth y m : Int) := by
  have hw1 := pyWeekday_lt7 y m 1
  have hlast := pyWeekday_lt7 y m (daysInMonth y m)
  have hdim := daysInMonth_bounds y m
  rcases hocc with ⟨h1, h4⟩ | h5
  · have hne : ¬ ((occ == 5) = true) := by simp only [beq_iff_eq]; omega
    simp only [nth_weekday]
    rw [if_neg hne]
    omega
  · subst h5
    simp only [nth_weekday]
    rw [if_pos (by decide)]
    omega

/-- C10.  For every year, month 1–12, weekday 0–6 and occurrence 1–4 or
the "last" sentinel 5, `_nth_weekday` returns a day between 1 and the
month's length; in particular occurrence 4 is safe even in a 28-day
February (the first occurrence is at most day 7, so the fourth is at most
day 28) although the source has no explicit guard. -/
theorem c10_nth_weekday_in_month (y m w occ : Nat) (hm1 : 1 ≤ m) (hm2 : m ≤ 12)
    (hw : w ≤ 6) (hocc : (1 ≤ occ ∧ occ ≤ 4) ∨ occ = 5) :
    1 ≤ nth_weekday y m occ w ∧ nth_weekday y m occ w ≤ (daysInMonth y m : Int) :=
  nth_weekday_bounds y m w occ hw hocc

/-- Witness for C10: fourth Sunday of February 2023 (a 28-day month). -/
theorem c10_witness :
    1 ≤ nth_weekday 2023 2 4 6 ∧ nth_weekday 2023 2 4 6 ≤ (daysInMonth 2023 2 : Int) :=
  c10_nth_weekday_in_month 2023 2 6 4 (by decide) (by decide) (by decide) (Or.inl (by decide))

/-! ## C9: no-DST zones are constant -/

/-- C9.  For every zone with `has_dst` false and every naive datetime,
`_is_dst_active` returns false, `dst` returns a zero delta and
`utcoffset` returns the constant standard offset, independently of the
datetime; and every no-DST `_ZONES` entry stores a `dst` offset equal to
its standard offset. -/
theorem c9_no_dst_constant (zd : ZoneData) (h : zd.has_dst = false) (dt : NaiveDT) :
    is_dst_active dt zd = some false ∧
    dstDelta zd dt = some 0 ∧
    utcoffset zd dt = some zd.std_off ∧
    (∀ p : String × ZoneData, p ∈ ZONES → p.2.has_dst = false →
      p.2.dst_off = p.2.std_off) := by
  have hact : is_dst_active dt zd = some false := by
    simp only [is_dst_active, h, Bool.not_false, if_pos]
  refine ⟨hact, ?_, ?_, by decide⟩
  · simp [dstDelta, hact]
  · simp [utcoffset, hact]

/-- Witness for C9: Brisbane (no DST) at an arbitrary concrete datetime. -/
theorem c9_witness :
    is_dst_active ⟨2024, 1, 15, 12, 0, 0⟩ ⟨600, 600, false, none, none, none⟩ =
      some false ∧
    dstDelta ⟨600, 600, false, none, none, none⟩ ⟨2024, 1, 15, 12, 0, 0⟩ = some 0 ∧
    utcoffset ⟨600, 600, false, none, none, none⟩ ⟨2024, 1, 15, 12, 0, 0⟩ = some 600 ∧
    (∀ p : String × ZoneData, p ∈ ZONES → p.2.has_dst = false →
      p.2.dst_off = p.2.std_off) :=
  c9_no_dst_constant ⟨600, 600, false, none, none, none⟩ rfl ⟨2024, 1, 15, 12, 0, 0⟩

lemma zones_lookup_mem (key : String) (zd : ZoneData) (h : zones_lookup key = some zd) :
    ∃ name, (name, zd) ∈ ZONES := by
  unfold zones_lookup at h
  rw [Option.map_eq_some'] at h
  obtain ⟨p, hp, hpz⟩ := h
  exact ⟨p.1, by rw [show (p.1, zd) = p from by rw [← hpz]]; exact List.mem_of_find?_eq_some hp⟩

lemma zones_wf : ∀ p : String × ZoneData, p ∈ ZONES →
    p.2.has_dst = false ∨ (p.2.dst_start.isSome ∧ p.2.dst_end.isSome) := by decide

lemma is_dst_active_isSome (zd : ZoneData) (dt : NaiveDT)
    (h : zd.has_dst = false ∨ (zd.dst_start.isSome ∧ zd.dst_end.isSome)) :
    (is_dst_active dt zd).isSome := by
  unfold is_dst_active
  rcases h with h | ⟨h1, h2⟩
  · simp [h]
  · obtain ⟨s, hs⟩ := Option.isSome_iff_exists.mp h1
    obtain ⟨e, he⟩ := Option.isSome_iff_exists.mp h2
    rw [hs, he]
    cases hb : zd.has_dst <;> simp [hb] <;> split <;> simp

/-! ## C7: the synthesized abbreviation (corrected)

The claim asserts `tzname` shows the *magnitude* of the hours, citing
`-570 → "UTC-9:30"`.  The code computes `hours = total_minutes // 60` with
Python floor division and `minutes = abs(total_minutes % 60)`, so a
negative half-hour offset formats as `UTC-10:30`, not `UTC-9:30`.  No
entry of the generated table has a negative offset, so the discrepancy is
invisible on the shipped zones. -/

/-- Counterexample to C7 as stated: at offset −570 the code yields
`"UTC-10:30"`, not `"UTC-9:30"`. -/
theorem c7_counterexample :
    tznameOfMinutes (-570) = "UTC-10:30" ∧ tznameOfMinutes (-570) ≠ "UTC-9:30" := by
  constructor
  · rfl
  · decide

/-- C7 (amended).  `tzname` is `UTC` followed by the mandatorily signed
floor-divided hours `total // 60`, with the minute remainder
`abs(total % 60)` appended zero-padded exactly when non-zero.  For the
non-negative offsets (the only ones in the generated table) the hours
equal the signed hour magnitude: +570 gives `"UTC+9:30"` and 0 gives
`"UTC+0"`; but −570 gives `"UTC-10:30"`.  For every table zone, `tzname`
formats exactly the minute count returned by `utcoffset`. -/
theorem c7_tzname_format :
    (∀ total : Int, 0 ≤ total → total % 60 = 0 →
      tznameOfMinutes total = "UTC+" ++ toString (total / 60)) ∧
    (∀ total : Int, 0 ≤ total → total % 60 ≠ 0 →
      tznameOfMinutes total =
        "UTC+" ++ toString (total / 60) ++ ":" ++ pad2 (total % 60).natAbs) ∧
    tznameOfMinutes 570 = "UTC+9:30" ∧
    tznameOfMinutes (-570) = "UTC-10:30" ∧
    tznameOfMinutes 0 = "UTC+0" ∧
    (∀ p : String × ZoneData, p ∈ ZONES →
      0 ≤ p.2.std_off ∧ 0 ≤ p.2.dst_off ∧
      ∀ dt : NaiveDT, ∃ o : Int,
        utcoffset p.2 dt = some o ∧ tzname p.2 dt = some (tznameOfMinutes o)) := by
  refine ⟨?_, ?_, rfl, rfl, rfl, ?_⟩
  · intro total h0 hm
    have hnat : (total % 60).natAbs = 0 := by omega
    have hpos : ¬ (total / 60 < 0) := by omega
    simp only [tznameOfMinutes, hnat, signedHours, if_neg hpos]
    rw [if_neg (by decide)]
    rw [← String.append_assoc]
    rfl
  · intro total h0 hm
    have hnat2 : ((total % 60).natAbs != 0) = true := by
      simp only [bne_iff_ne, ne_eq]
      omega
    have hpos : ¬ (total / 60 < 0) := by omega
    simp only [tznameOfMinutes, signedHours, if_neg hpos]
    rw [if_pos hnat2]
    rw [← String.append_assoc]
    rfl
  · intro p hp
    refine ⟨?_, ?_, fun dt => ?_⟩
    · fin_cases hp <;> decide
    · fin_cases hp <;> decide
    · obtain ⟨b, hb⟩ := Option.isSome_iff_exists.mp
        (is_dst_active_isSome p.2 dt (zones_wf p hp))
      exact ⟨if b = true then p.2.dst_off else p.2.std_off,
        by simp [utcoffset, hb], by simp [tzname, utcoffset, hb]⟩

/-- Witness for C7 applied at the concrete offset 600. -/
theorem c7_witness : tznameOfMinutes 600 = "UTC+" ++ toString ((600 : Int) / 60) :=
  c7_tzname_format.1 600 (by decide) (by decide)

/-! ## C8: unknown zone is the only failure mode -/

/-- C8.  Unknown zone is the only failure mode: `ZoneInfo.__init__` raises
(`KeyError`) exactly for identifiers absent from `_ZONES`, before any
state of the handle is set (modelled by `Except`: no partial result);
`get_zone_info` raises (`ValueError`) for a zone the oracle does not know;
and every identifier present in the table supports every runtime query
(`utcoffset`, `dst`, `tzname` all return a value for every datetime). -/
theorem c8_unknown_zone_only_failure (key : String) :
    (zones_lookup key = none →
      ZoneInfo_init key = Except.error ("Unknown timezone: " ++ key)) ∧
    (∀ (lookup : String → Option TzOracle) (name : String), lookup name = none →
      get_zone_info lookup name = Except.error ("Unknown timezone: " ++ name)) ∧
    (∀ zd : ZoneData, zones_lookup key = some zd →
      ZoneInfo_init key = Except.ok zd ∧
      ∀ dt : NaiveDT,
        (utcoffset zd dt).isSome ∧ (dstDelta zd dt).isSome ∧ (tzname zd dt).isSome) := by
  refine ⟨fun h => by simp [ZoneInfo_init, h], fun lookup name h => by simp [get_zone_info, h],
    fun zd h => ⟨by simp [ZoneInfo_init, h], fun dt => ?_⟩⟩
  obtain ⟨name, hmem⟩ := zones_lookup_mem key zd h
  have hwf := zones_wf (name, zd) hmem
  have hact := is_dst_active_isSome zd dt hwf
  obtain ⟨b, hb⟩ := Option.isSome_iff_exists.mp hact
  exact ⟨by simp [utcoffset, hb], by simp [dstDelta, hb], by simp [tzname, utcoffset, hb]⟩

/-- Witness for C8 at concrete keys: a missing key errors, and Adelaide
(present) answers all three queries. -/
theorem c8_witness :
    ZoneInfo_init "Mars/Olympus" = Except.error ("Unknown timezone: " ++ "Mars/Olympus") ∧
    (utcoffset ⟨570, 630, true, some "south", some ⟨10, 1, 6, 2⟩, some ⟨4, 1, 6, 3⟩⟩
        ⟨2024, 1, 15, 12, 0, 0⟩).isSome := by
  constructor
  · exact (c8_unknown_zone_only_failure "Mars/Olympus").1 (by decide)
  · exact (((c8_unknown_zone_only_failure "Australia/Adelaide").2.2
      ⟨570, 630, true, some "south", some ⟨10, 1, 6, 2⟩, some ⟨4, 1, 6, 3⟩⟩
      (by decide)).2 ⟨2024, 1, 15, 12, 0, 0⟩).1

lemma tLt_iff (a b : Int × Int × Int) : tLt a b = true ↔ lexLt3 a b := by
  obtain ⟨a1, a2, a3⟩ := a
  obtain ⟨b1, b2, b3⟩ := b
  simp [tLt, lexLt3]

lemma tGe_iff (a b : Int × Int × Int) : tGe a b = true ↔ lexGe3 a b := by
  obtain ⟨a1, a2, a3⟩ := a
  obtain ⟨b1, b2, b3⟩ := b
  simp [tGe, tLt, lexGe3, lexLt3, Prod.ext_iff]
  omega

/-- C1.  For every zone rule with `has_dst`, the evaluator materializes
the start/end boundaries for the query's year with the nth-weekday
resolver, forms (month, day, hour) triples, and compares them
lexicographically: South is active iff `current ≥ start ∨ current < end`,
North iff `current ≥ start ∧ current < end`.  On the south rule
`(10,1,6,2) → (4,1,6,3)` it answers true at 2024-10-06 03:00 and
2025-01-15 12:00, false at 2024-10-06 01:00 and 2024-07-15 12:00. -/
theorem c1_is_dst_active_lex (zd : ZoneData) (s e : TransRule) (dt : NaiveDT)
    (hd : zd.has_dst = true) (hs : zd.dst_start = some s) (he : zd.dst_end = some e) :
    ((zd.hemisphere = some "south" →
      (is_dst_active dt zd = some true ↔
        lexGe3 ((dt.month : Int), (dt.day : Int), (dt.hour : Int))
          ((s.month : Int), nth_weekday dt.year s.month s.week s.weekday, (s.hour : Int)) ∨
        lexLt3 ((dt.month : Int), (dt.day : Int), (dt.hour : Int))
          ((e.month : Int), nth_weekday dt.year e.month e.week e.weekday, (e.hour : Int)))) ∧
     (zd.hemisphere = some "north" →
      (is_dst_active dt zd = some true ↔
        lexGe3 ((dt.month : Int), (dt.day : Int), (dt.hour : Int))
          ((s.month : Int), nth_weekday dt.year s.month s.week s.weekday, (s.hour : Int)) ∧
        lexLt3 ((dt.month : Int), (dt.day : Int), (dt.hour : Int))
          ((e.month : Int), nth_weekday dt.year e.month e.week e.weekday, (e.hour : Int))))) ∧
    (∀ std dst : Int,
      is_dst_active ⟨2024, 10, 6, 3, 0, 0⟩
        ⟨std, dst, true, some "south", some ⟨10, 1, 6, 2⟩, some ⟨4, 1, 6, 3⟩⟩ = some true ∧
      is_dst_active ⟨2025, 1, 15, 12, 0, 0⟩
        ⟨std, dst, true, some "south", some ⟨10, 1, 6, 2⟩, some ⟨4, 1, 6, 3⟩⟩ = some true ∧
      is_dst_active ⟨2024, 10, 6, 1, 0, 0⟩
        ⟨std, dst, true, some "south", some ⟨10, 1, 6, 2⟩, some ⟨4, 1, 6, 3⟩⟩ = some false ∧
      is_dst_active ⟨2024, 7, 15, 12, 0, 0⟩
        ⟨std, dst, true, some "south", some ⟨10, 1, 6, 2⟩, some ⟨4, 1, 6, 3⟩⟩ = some false) := by
  constructor
  · constructor
    · intro hsouth
      simp only [is_dst_active, hd, hs, he, hsouth, Bool.not_true, Bool.false_eq_true,
        if_false]
      rw [if_pos (by decide)]
      simp only [Option.some_inj, Bool.or_eq_true, tGe_iff, tLt_iff]
    · intro hnorth
      simp only [is_dst_active, hd, hs, he, hnorth, Bool.not_true, Bool.false_eq_true,
        if_false]
      rw [if_neg (by decide)]
      simp only [Option.some_inj, Bool.and_eq_true, tGe_iff, tLt_iff]
  · intro std dst
    refine ⟨?_, ?_, ?_, ?_⟩ <;>
      simp only [is_dst_active, nth_weekday, tGe, tLt] <;> decide

/-- Witness for C1: the south branch of the lexicographic description at
Adelaide's rule and 2024-10-06 03:00. -/
theorem c1_witness :
    is_dst_active ⟨2024, 10, 6, 3, 0, 0⟩
      ⟨570, 630, true, some "south", some ⟨10, 1, 6, 2⟩, some ⟨4, 1, 6, 3⟩⟩ = some true ↔
      lexGe3 ((10 : Int), (6 : Int), (3 : Int))
        ((10 : Int), nth_weekday 2024 10 1 6, (2 : Int)) ∨
      lexLt3 ((10 : Int), (6 : Int), (3 : Int))
        ((4 : Int), nth_weekday 2024 4 1 6, (3 : Int)) :=
  ((c1_is_dst_active_lex
    ⟨570, 630, true, some "south", some ⟨10, 1, 6, 2⟩, some ⟨4, 1, 6, 3⟩⟩
    ⟨10, 1, 6, 2⟩ ⟨4, 1, 6, 3⟩ ⟨2024, 10, 6, 3, 0, 0⟩ rfl rfl rfl).1.1) rfl

/-! ## C2: the hand-authored Australian evaluator is a special case of the
generic rule-driven evaluator -/

/-- C2.  For every structurally valid naive datetime, the hand-authored
Australian evaluator (Zeller first-Sunday month-case analysis, DST first
Sunday of October 02:00 → first Sunday of April 03:00) returns exactly the
boolean the generic evaluator computes for the south-hemisphere zone rule
`dst_start = (10,1,6,2)`, `dst_end = (4,1,6,3)`, for any offsets. -/
theorem c2_au_eq_generic (std dst : Int) (dt : NaiveDT) (h : ValidDT dt) :
    is_dst_active dt ⟨std, dst, true, some "south", some ⟨10, 1, 6, 2⟩, some ⟨4, 1, 6, 3⟩⟩ =
      some (is_dst_active_au dt true) := by
  obtain ⟨hy, -⟩ := h
  have hfs := first_sunday_eq_nth_weekday dt.year hy
  simp only [is_dst_active, is_dst_active_au, Bool.not_true, Bool.false_eq_true, if_false]
  rw [if_pos (by decide)]
  rw [← hfs.1, ← hfs.2]
  apply congrArg some
  rw [Bool.eq_iff_iff]
  simp only [tGe, tLt, Bool.or_eq_true, Bool.not_eq_true', Bool.and_eq_true,
    decide_eq_true_eq, beq_iff_eq, Bool.or_eq_false_iff, Bool.and_eq_false_iff,
    decide_eq_false_iff_not, not_lt]
  constructor
  · intro hcur
    split_ifs with h1 h2 h3 h4 h5 h6 h7 h8 <;>
      simp_all <;> omega
  · intro hcur
    split_ifs at hcur with h1 h2 h3 h4 h5 h6 h7 h8 <;>
      simp_all <;> omega

/-- Witness for C2 at 2024-10-06 03:00 with Adelaide's offsets. -/
theorem c2_witness :
    is_dst_active ⟨2024, 10, 6, 3, 0, 0⟩
      ⟨570, 630, true, some "south", some ⟨10, 1, 6, 2⟩, some ⟨4, 1, 6, 3⟩⟩ =
      some (is_dst_active_au ⟨2024, 10, 6, 3, 0, 0⟩ true) :=
  c2_au_eq_generic 570 630 ⟨2024, 10, 6, 3, 0, 0⟩ (by decide)

/-! ## C4: round-trip between the extractor's rule derivation and the
resolver -/

/-- C4.  For every valid calendar date — hence for every transition day
the extractor's day-by-day scan can detect (the scan only visits valid
dates) — the derived Transition Rule keeps the month and hour, uses the
"last" sentinel exactly when no same-weekday date remains in the month,
and resolving it with `_nth_weekday` reproduces the original day-of-month
exactly. -/
theorem c4_round_trip (y m d hr : Nat) (hd1 : 1 ≤ d) (hd2 : d ≤ daysInMonth y m) :
    (deriveRule y m d hr).month = m ∧
    (deriveRule y m d hr).hour = hr ∧
    ((deriveRule y m d hr).week = 5 ↔ daysInMonth y m < d + 7) ∧
    nth_weekday y m (deriveRule y m d hr).week (deriveRule y m d hr).weekday = (d : Int) := by
  have ha := pyWeekday_lt7 y m 1
  have hw := pyWeekday_lt7 y m d
  have hshift := pyWeekday_shift y m d hd1
  have hdim := daysInMonth_bounds y m
  refine ⟨rfl, rfl, ?_, ?_⟩
  · by_cases hc : d + 7 > daysInMonth y m
    · simp only [deriveRule, if_pos hc]
      constructor
      · intro _; omega
      · intro _; rfl
    · simp only [deriveRule, if_neg hc]
      constructor
      · intro h5; omega
      · intro hlt; omega
  · by_cases hc : d + 7 > daysInMonth y m
    · have hld := pyWeekday_lt7 y m (daysInMonth y m)
      have hsd := pyWeekday_shift y m (daysInMonth y m) (by omega)
      simp only [deriveRule, nth_weekday, if_pos hc]
      rw [if_pos (by decide)]
      omega
    · simp only [deriveRule, nth_weekday, if_neg hc]
      rw [if_neg (by simp only [beq_iff_eq]; omega)]
      omega

/-- Witness for C4: October 6 2024 (first Sunday) with start hour 2. -/
theorem c4_witness :
    (deriveRule 2024 10 6 2).month = 10 ∧
    (deriveRule 2024 10 6 2).hour = 2 ∧
    ((deriveRule 2024 10 6 2).week = 5 ↔ daysInMonth 2024 10 < 6 + 7) ∧
    nth_weekday 2024 10 (deriveRule 2024 10 6 2).week (deriveRule 2024 10 6 2).weekday =
      (6 : Int) :=
  c4_round_trip 2024 10 6 2 (by decide) (by decide)

/-! ## C6: the extractor's sampling postcondition -/

/-- The day-by-day scan only ever records start rules with hour 2 and end
rules with hour 3, whatever the oracle answers. -/
lemma scan_hours_invariant (oracle : TzOracle) (year : Nat) :
    ∀ (l : List (Nat × Nat)) (st : Option Bool × Transitions),
      (∀ r, st.2.tstart = some r → r.hour = 2) →
      (∀ r, st.2.tend = some r → r.hour = 3) →
      (∀ r, (l.foldl (scanStep oracle year) st).2.tstart = some r → r.hour = 2) ∧
      (∀ r, (l.foldl (scanStep oracle year) st).2.tend = some r → r.hour = 3) := by
  intro l
  induction l with
  | nil => exact fun st h2 h3 => ⟨h2, h3⟩
  | cons a l ih =>
    intro st h2 h3
    simp only [List.foldl_cons]
    apply ih
    · intro r hr
      unfold scanStep at hr
      split at hr
      · simp only at hr
        split at hr
        · split at hr
          · split at hr
            · simp only [Transitions.tstart] at hr
              cases hr
              rfl
            · exact h2 r hr
          · exact h2 r hr
        · exact h2 r hr
      · exact h2 r hr
    · intro r hr
      unfold scanStep at hr
      split at hr
      · simp only at hr
        split at hr
        · split at hr
          · split at hr
            · exact h3 r hr
            · simp only [Transitions.tend] at hr
              cases hr
              rfl
          · exact h3 r hr
        · exact h3 r hr
      · exact h3 r hr

/-- C6.  On a zone the oracle knows, `get_zone_info` samples noon of
January 15 and July 15: a positive January DST delta yields hemisphere
"south" with the standard offset from July and the DST offset from
January; otherwise (with a positive July delta) hemisphere "north" with
the standard offset from January and the DST offset from July; every
emitted start rule carries hour 2 and every end rule hour 3; and with no
positive delta in either sample the record has `dst = std` offsets and no
hemisphere. -/
theorem c6_get_zone_info_postcondition (lookup : String → Option TzOracle)
    (name : String) (tz : TzOracle) (hlk : lookup name = some tz) :
    (dstFlag (tz.sample 2024 1 15 12) = true →
      get_zone_info lookup name = Except.ok
        ⟨name, (tz.sample 2024 7 15 12).offset, (tz.sample 2024 1 15 12).offset,
         true, some "south", some (find_dst_transitions tz 2024)⟩) ∧
    (dstFlag (tz.sample 2024 1 15 12) = false →
      dstFlag (tz.sample 2024 7 15 12) = true →
      get_zone_info lookup name = Except.ok
        ⟨name, (tz.sample 2024 1 15 12).offset, (tz.sample 2024 7 15 12).offset,
         true, some "north", some (find_dst_transitions tz 2024)⟩) ∧
    (dstFlag (tz.sample 2024 1 15 12) = false →
      dstFlag (tz.sample 2024 7 15 12) = false →
      get_zone_info lookup name = Except.ok
        ⟨name, (tz.sample 2024 1 15 12).offset, (tz.sample 2024 1 15 12).offset,
         false, none, none⟩) ∧
    (∀ (year : Nat) (r : TransRule),
      (find_dst_transitions tz year).tstart = some r → r.hour = 2) ∧
    (∀ (year : Nat) (r : TransRule),
      (find_dst_transitions tz year).tend = some r → r.hour = 3) := by
  refine ⟨?_, ?_, ?_, ?_, ?_⟩
  · intro hjan
    simp [get_zone_info, hlk, hjan]
  · intro hjan hjul
    simp [get_zone_info, hlk, hjan, hjul]
  · intro hjan hjul
    simp [get_zone_info, hlk, hjan, hjul]
  · intro year r
    exact fun hr => (scan_hours_invariant tz year allMonthDays (none, ⟨none, none⟩)
      (by intro r h; cases h) (by intro r h; cases h)).1 r hr
  · intro year r
    exact fun hr => (scan_hours_invariant tz year allMonthDays (none, ⟨none, none⟩)
      (by intro r h; cases h) (by intro r h; cases h)).2 r hr

/-- Witness for C6: the test oracle's January sample shows DST, so the
record is southern with July's standard offset and January's DST offset. -/
theorem c6_witness :
    get_zone_info (fun n => if n == "Test/South" then some southOracle else none)
        "Test/South" =
      Except.ok ⟨"Test/South", (southOracle.sample 2024 7 15 12).offset,
        (southOracle.sample 2024 1 15 12).offset, true, some "south",
        some (find_dst_transitions southOracle 2024)⟩ :=
  (c6_get_zone_info_postcondition
    (fun n => if n == "Test/South" then some southOracle else none)
    "Test/South" southOracle (by simp)).1 (by decide)

/-! ## C5: boundary exactness of the runtime offset -/

/-- The generic south-rule zone: on the October transition day the offset
moves from standard to DST across the 02:00 boundary, on the April day it
moves back across 03:00, and on every other day of the year the offset is
the same at every hour, minute and second of the day. -/
lemma south_boundary (std dst : Int) (y : Nat) :
    (utcoffset ⟨std, dst, true, some "south", some ⟨10, 1, 6, 2⟩, some ⟨4, 1, 6, 3⟩⟩
        ⟨y, 10, (nth_weekday y 10 1 6).toNat, 1, 59, 0⟩ = some std ∧
      utcoffset ⟨std, dst, true, some "south", some ⟨10, 1, 6, 2⟩, some ⟨4, 1, 6, 3⟩⟩
        ⟨y, 10, (nth_weekday y 10 1 6).toNat, 3, 1, 0⟩ = some dst) ∧
    (utcoffset ⟨std, dst, true, some "south", some ⟨10, 1, 6, 2⟩, some ⟨4, 1, 6, 3⟩⟩
        ⟨y, 4, (nth_weekday y 4 1 6).toNat, 1, 59, 0⟩ = some dst ∧
      utcoffset ⟨std, dst, true, some "south", some ⟨10, 1, 6, 2⟩, some ⟨4, 1, 6, 3⟩⟩
        ⟨y, 4, (nth_weekday y 4 1 6).toNat, 3, 1, 0⟩ = some std) ∧
    (∀ m d h1 mi1 s1 h2 mi2 s2 : Nat,
      ¬(m = 10 ∧ (d : Int) = nth_weekday y 10 1 6) →
      ¬(m = 4 ∧ (d : Int) = nth_weekday y 4 1 6) →
      utcoffset ⟨std, dst, true, some "south", some ⟨10, 1, 6, 2⟩, some ⟨4, 1, 6, 3⟩⟩
          ⟨y, m, d, h1, mi1, s1⟩ =
        utcoffset ⟨std, dst, true, some "south", some ⟨10, 1, 6, 2⟩, some ⟨4, 1, 6, 3⟩⟩
          ⟨y, m, d, h2, mi2, s2⟩) := by
  have hS := nth_weekday_bounds y 10 6 1 (by omega) (Or.inl (by omega))
  have hE := nth_weekday_bounds y 4 6 1 (by omega) (Or.inl (by omega))
  have hSn : (((nth_weekday y 10 1 6).toNat : Nat) : Int) = nth_weekday y 10 1 6 :=
    Int.toNat_of_nonneg (by omega)
  have hEn : (((nth_weekday y 4 1 6).toNat : Nat) : Int) = nth_weekday y 4 1 6 :=
    Int.toNat_of_nonneg (by omega)
  have hred : ∀ dt : NaiveDT,
      utcoffset ⟨std, dst, true, some "south", some ⟨10, 1, 6, 2⟩, some ⟨4, 1, 6, 3⟩⟩ dt =
        some (if (tGe ((dt.month : Int), (dt.day : Int), (dt.hour : Int))
                    (10, nth_weekday dt.year 10 1 6, 2) ||
                  tLt ((dt.month : Int), (dt.day : Int), (dt.hour : Int))
                    (4, nth_weekday dt.year 4 1 6, 3)) = true
              then dst else std) := by
    intro dt
    simp only [utcoffset, is_dst_active, Bool.not_true, Bool.false_eq_true, if_false]
    rw [if_pos (by decide)]
    rfl
  have hbool : ∀ dt1 dt2 : NaiveDT,
      ((tGe ((dt1.month : Int), (dt1.day : Int), (dt1.hour : Int))
          (10, nth_weekday dt1.year 10 1 6, 2) ||
        tLt ((dt1.month : Int), (dt1.day : Int), (dt1.hour : Int))
          (4, nth_weekday dt1.year 4 1 6, 3)) =
       (tGe ((dt2.month : Int), (dt2.day : Int), (dt2.hour : Int))
          (10, nth_weekday dt2.year 10 1 6, 2) ||
        tLt ((dt2.month : Int), (dt2.day : Int), (dt2.hour : Int))
          (4, nth_weekday dt2.year 4 1 6, 3))) →
      utcoffset ⟨std, dst, true, some "south", some ⟨10, 1, 6, 2⟩, some ⟨4, 1, 6, 3⟩⟩ dt1 =
        utcoffset ⟨std, dst, true, some "south", some ⟨10, 1, 6, 2⟩, some ⟨4, 1, 6, 3⟩⟩ dt2 := by
    intro dt1 dt2 hb
    rw [hred dt1, hred dt2, hb]
  refine ⟨⟨?_, ?_⟩, ⟨?_, ?_⟩, ?_⟩
  · rw [hred]
    have : (tGe (((10 : Nat) : Int), (((nth_weekday y 10 1 6).toNat : Nat) : Int),
          ((1 : Nat) : Int)) (10, nth_weekday y 10 1 6, 2) ||
        tLt (((10 : Nat) : Int), (((nth_weekday y 10 1 6).toNat : Nat) : Int),
          ((1 : Nat) : Int)) (4, nth_weekday y 4 1 6, 3)) = false := by
      simp only [tGe, tLt, Bool.or_eq_false_iff, Bool.not_eq_false', Bool.or_eq_true,
        Bool.and_eq_true, Bool.and_eq_false_iff, decide_eq_true_eq,
        decide_eq_false_iff_not, beq_iff_eq, beq_eq_false_iff_ne, ne_eq, hSn,
        not_true, not_false_eq_true, Nat.cast_ofNat, lt_self_iff_false,
        eq_self_iff_true, true_or, or_true,
        false_or, or_false, true_and, and_true, false_and, and_false]
      omega
    rw [this]
    simp
  · rw [hred]
    have : (tGe (((10 : Nat) : Int), (((nth_weekday y 10 1 6).toNat : Nat) : Int),
          ((3 : Nat) : Int)) (10, nth_weekday y 10 1 6, 2) ||
        tLt (((10 : Nat) : Int), (((nth_weekday y 10 1 6).toNat : Nat) : Int),
          ((3 : Nat) : Int)) (4, nth_weekday y 4 1 6, 3)) = true := by
      simp only [tGe, tLt, Bool.or_eq_true, Bool.not_eq_true', Bool.or_eq_false_iff,
        Bool.and_eq_true, Bool.and_eq_false_iff, decide_eq_true_eq,
        decide_eq_false_iff_not, beq_iff_eq, beq_eq_false_iff_ne, ne_eq, hSn,
        not_true, not_false_eq_true, Nat.cast_ofNat, lt_self_iff_false,
        eq_self_iff_true, true_or, or_true,
        false_or, or_false, true_and, and_true, false_and, and_false]
      omega
    rw [this]
    simp
  · rw [hred]
    have : (tGe (((4 : Nat) : Int), (((nth_weekday y 4 1 6).toNat : Nat) : Int),
          ((1 : Nat) : Int)) (10, nth_weekday y 10 1 6, 2) ||
        tLt (((4 : Nat) : Int), (((nth_weekday y 4 1 6).toNat : Nat) : Int),
          ((1 : Nat) : Int)) (4, nth_weekday y 4 1 6, 3)) = true := by
      simp only [tGe, tLt, Bool.or_eq_true, Bool.not_eq_true', Bool.or_eq_false_iff,
        Bool.and_eq_true, Bool.and_eq_false_iff, decide_eq_true_eq,
        decide_eq_false_iff_not, beq_iff_eq, beq_eq_false_iff_ne, ne_eq, hEn,
        not_true, not_false_eq_true, Nat.cast_ofNat, lt_self_iff_false,
        false_or, or_false, true_and, and_true, false_and, and_false]
      omega
    rw [this]
    simp
  · rw [hred]
    have : (tGe (((4 : Nat) : Int), (((nth_weekday y 4 1 6).toNat : Nat) : Int),
          ((3 : Nat) : Int)) (10, nth_weekday y 10 1 6, 2) ||
        tLt (((4 : Nat) : Int), (((nth_weekday y 4 1 6).toNat : Nat) : Int),
          ((3 : Nat) : Int)) (4, nth_weekday y 4 1 6, 3)) = false := by
      simp only [tGe, tLt, Bool.or_eq_false_iff, Bool.not_eq_false', Bool.or_eq_true,
        Bool.and_eq_true, Bool.and_eq_false_iff, decide_eq_true_eq,
        decide_eq_false_iff_not, beq_iff_eq, beq_eq_false_iff_ne, ne_eq, hEn,
        not_true, not_false_eq_true, Nat.cast_ofNat, lt_self_iff_false,
        false_or, or_false, true_and, and_true, false_and, and_false]
      omega
    rw [this]
    simp
  · intro m d h1 mi1 s1 h2 mi2 s2 hm10 hm4
    apply hbool
    rw [Bool.eq_iff_iff]
    simp only [Bool.or_eq_true, tGe, tLt, Bool.not_eq_true', Bool.or_eq_false_iff,
      Bool.and_eq_false_iff, Bool.and_eq_true, decide_eq_true_eq,
      decide_eq_false_iff_not, beq_iff_eq, beq_eq_false_iff_ne, ne_eq]
    omega

/-- C5.  For every DST-observing zone of the generated table and every
year: on the October transition day (as resolved for that year) the
offset at 03:01 exceeds the offset at 01:59 by exactly
`dst_offset - standard_offset`; on the April transition day the offset at
01:59 exceeds the offset at 03:01 by the same delta; and on every day of
the year that is not one of the two transition days the offset is
identical at every hour, minute and second of that day. -/
theorem c5_boundary_exactness (p : String × ZoneData) (hp : p ∈ ZONES)
    (hdst : p.2.has_dst = true) (y : Nat) :
    (∃ o1 o2, utcoffset p.2 ⟨y, 10, (nth_weekday y 10 1 6).toNat, 1, 59, 0⟩ = some o1 ∧
      utcoffset p.2 ⟨y, 10, (nth_weekday y 10 1 6).toNat, 3, 1, 0⟩ = some o2 ∧
      o2 - o1 = p.2.dst_off - p.2.std_off) ∧
    (∃ o1 o2, utcoffset p.2 ⟨y, 4, (nth_weekday y 4 1 6).toNat, 1, 59, 0⟩ = some o1 ∧
      utcoffset p.2 ⟨y, 4, (nth_weekday y 4 1 6).toNat, 3, 1, 0⟩ = some o2 ∧
      o1 - o2 = p.2.dst_off - p.2.std_off) ∧
    (∀ m d h1 mi1 s1 h2 mi2 s2 : Nat,
      ¬(m = 10 ∧ (d : Int) = nth_weekday y 10 1 6) →
      ¬(m = 4 ∧ (d : Int) = nth_weekday y 4 1 6) →
      utcoffset p.2 ⟨y, m, d, h1, mi1, s1⟩ = utcoffset p.2 ⟨y, m, d, h2, mi2, s2⟩) := by
  fin_cases hp
  · obtain ⟨⟨ha1, ha2⟩, ⟨hb1, hb2⟩, hc⟩ := south_boundary 570 630 y
    exact ⟨⟨570, 630, ha1, ha2, rfl⟩, ⟨630, 570, hb1, hb2, rfl⟩, hc⟩
  · exact absurd hdst (by decide)
  · obtain ⟨⟨ha1, ha2⟩, ⟨hb1, hb2⟩, hc⟩ := south_boundary 600 660 y
    exact ⟨⟨600, 660, ha1, ha2, rfl⟩, ⟨660, 600, hb1, hb2, rfl⟩, hc⟩
  · exact absurd hdst (by decide)
  · obtain ⟨⟨ha1, ha2⟩, ⟨hb1, hb2⟩, hc⟩ := south_boundary 600 660 y
    exact ⟨⟨600, 660, ha1, ha2, rfl⟩, ⟨660, 600, hb1, hb2, rfl⟩, hc⟩
  · exact absurd hdst (by decide)

/-- Witness for C5: Adelaide in 2024 (transition days October 6 and
April 7). -/
theorem c5_witness :
    (∃ o1 o2,
      utcoffset ⟨570, 630, true, some "south", some ⟨10, 1, 6, 2⟩, some ⟨4, 1, 6, 3⟩⟩
          ⟨2024, 10, (nth_weekday 2024 10 1 6).toNat, 1, 59, 0⟩ = some o1 ∧
      utcoffset ⟨570, 630, true, some "south", some ⟨10, 1, 6, 2⟩, some ⟨4, 1, 6, 3⟩⟩
          ⟨2024, 10, (nth_weekday 2024 10 1 6).toNat, 3, 1, 0⟩ = some o2 ∧
      o2 - o1 = (630 : Int) - 570) ∧
    (∃ o1 o2,
      utcoffset ⟨570, 630, true, some "south", some ⟨10, 1, 6, 2⟩, some ⟨4, 1, 6, 3⟩⟩
          ⟨2024, 4, (nth_weekday 2024 4 1 6).toNat, 1, 59, 0⟩ = some o1 ∧
      utcoffset ⟨570, 630, true, some "south", some ⟨10, 1, 6, 2⟩, some ⟨4, 1, 6, 3⟩⟩
          ⟨2024, 4, (nth_weekday 2024 4 1 6).toNat, 3, 1, 0⟩ = some o2 ∧
      o1 - o2 = (630 : Int) - 570) ∧
    (∀ m d h1 mi1 s1 h2 mi2 s2 : Nat,
      ¬(m = 10 ∧ (d : Int) = nth_weekday 2024 10 1 6) →
      ¬(m = 4 ∧ (d : Int) = nth_weekday 2024 4 1 6) →
      utcoffset ⟨570, 630, true, some "south", some ⟨10, 1, 6, 2⟩, some ⟨4, 1, 6, 3⟩⟩
          ⟨2024, m, d, h1, mi1, s1⟩ =
        utcoffset ⟨570, 630, true, some "south", some ⟨10, 1, 6, 2⟩, some ⟨4, 1, 6, 3⟩⟩
          ⟨2024, m, d, h2, mi2, s2⟩) :=
  c5_boundary_exactness
    ("Australia/Adelaide", ⟨570, 630, true, some "south", some ⟨10, 1, 6, 2⟩, some ⟨4, 1, 6, 3⟩⟩)
    (by simp [ZONES]) rfl 2024

end MpyTz
